import Mathlib

/-!
Verification of the stock-advisor strategy/backtest core.

The definitions below are a shallow embedding, in Lean 4, of:
  * `Backtester.run` / `Backtester._simulate_portfolio` (src/backtest.py),
  * `Strategy.can_signal` / `Strategy.update_last_signal` (src/app/strategy/base.py),
  * `MACrossoverStrategy.generate_signals` (src/app/strategy/ma_crossover.py),
  * `MACDStochasticStrategy.generate_signals` (src/app/strategy/macd_stochastic.py),
  * the signal-emitting guard conditions of `BBandsStrategy.generate_signals`
    (src/app/strategy/bollinger_bands.py).

Modelling conventions:
  * Python floats are modelled as exact rationals (`ℚ`); NaN-able indicator
    columns become `Option ℚ` with `none` for NaN, and pandas comparisons
    against NaN (which are `False`) become the `opt*B` helpers below.
  * Timestamps are rationals, measured in seconds (`total_seconds()`), so
    `minutes_diff = (timestamp - last_timestamp).total_seconds() / 60`
    becomes a division by 60.
  * DataFrames become lists of typed row structures; the DataFrame index is
    the row position (the library's default RangeIndex), and the whole-series
    `shift(1)` columns become the previous row carried through the traversal
    (`none` at the first row, where `shift` yields NaN).
  * The strategies' required-column checks are schema checks that a typed
    embedding makes vacuous; the sort-by-time step is reflected by theorems
    that take the bar list as given (already in DataFrame order).
-/

namespace StockAdvisor

/-! ## Signal data model (src/app/strategy/base.py) -/

/-- `SignalAction` enum. -/
inductive SignalAction where
  | buy
  | sell
  | hold
deriving DecidableEq, Repr

/-- `SignalStrength` enum. -/
inductive SignalStrength where
  | strong
  | moderate
  | weak
deriving DecidableEq, Repr

/-- The `Signal` dataclass, restricted to the fields the verified components
read (`reason` and `metadata` are write-only strings/floats used for logging
and serialization). `time` is the timestamp in seconds. -/
structure Sig where
  ticker : String
  action : SignalAction
  strength : SignalStrength
  time : ℚ
  price : ℚ
deriving DecidableEq, Repr

/-- `Strategy.last_signals`: the per-ticker record of the last emitted
signal (a Python dict, embedded as a function to `Option`). -/
def StrategyState := String → Option Sig

/-- The empty `last_signals` dict of a fresh `Strategy` instance. -/
def StrategyState.empty : StrategyState := fun _ => none

/-- `Strategy.can_signal(ticker, timestamp, cooldown_minutes)`
(src/app/strategy/base.py lines 67-85): true when no prior signal is
recorded for `ticker`, or when
`(timestamp - last_timestamp).total_seconds() / 60 >= cooldown_minutes`. -/
def canSignal (lastSignals : StrategyState) (ticker : String)
    (timestamp : ℚ) (cooldownMinutes : ℚ) : Bool :=
  match lastSignals ticker with
  | none => true
  | some s => decide (cooldownMinutes ≤ (timestamp - s.time) / 60)

/-- `Strategy.can_signal` viewed as a state-passing method call: it returns
its boolean answer together with the post-call `last_signals` state.  The
method body contains no assignment to `self.last_signals`, so the post-state
is the pre-state. -/
def canSignalCall (lastSignals : StrategyState) (ticker : String)
    (timestamp : ℚ) (cooldownMinutes : ℚ) : Bool × StrategyState :=
  (canSignal lastSignals ticker timestamp cooldownMinutes, lastSignals)

/-- `Strategy.update_last_signal(signal)` (src/app/strategy/base.py
lines 87-94): `self.last_signals[signal.ticker] = signal`. -/
def updateLastSignal (lastSignals : StrategyState) (s : Sig) : StrategyState :=
  fun t => if t = s.ticker then some s else lastSignals t

/-! ## Pandas NaN-propagating comparisons

In pandas every comparison with NaN is `False`; these helpers embed the
comparisons the strategies perform on possibly-NaN indicator columns. -/

/-- `a < b` on possibly-NaN values: `False` whenever either side is NaN. -/
def optLtB : Option ℚ → Option ℚ → Bool
  | some a, some b => decide (a < b)
  | _, _ => false

/-- `a > b` on possibly-NaN values: `False` whenever either side is NaN. -/
def optGtB : Option ℚ → Option ℚ → Bool
  | some a, some b => decide (b < a)
  | _, _ => false

/-- `a <= b` on possibly-NaN values: `False` whenever either side is NaN. -/
def optLeB : Option ℚ → Option ℚ → Bool
  | some a, some b => decide (a ≤ b)
  | _, _ => false

/-- `a >= b` on possibly-NaN values: `False` whenever either side is NaN. -/
def optGeB : Option ℚ → Option ℚ → Bool
  | some a, some b => decide (b ≤ a)
  | _, _ => false

/-! ## Portfolio simulation (src/backtest.py, `Backtester._simulate_portfolio`) -/

/-- One row of the `portfolio` DataFrame built by `_simulate_portfolio`:
`price`, `cash`, `holdings`, `total` columns, plus the running
`current_position` flag (`pos`).  In the source, the scalar `current_cash`
and the `cash` column stay equal at every processed row (every branch writes
`cash[i]` with the value of `current_cash`, or copies `cash[i-1]` while
leaving `current_cash` untouched), so a single `cash` field embeds both. -/
structure SimState where
  price : ℚ
  cash : ℚ
  holdings : ℚ
  total : ℚ
  pos : Bool
deriving DecidableEq, Repr

/-- The state before the loop body has processed any row: `current_cash =
initial_capital`, `current_position = 0`, `holdings` column initialized to 0
(src/backtest.py lines 218-223).  The `price` field is a placeholder: the
loop only reads the previous row's price in branches that require
`current_position == 1`, which is impossible before the first BUY. -/
def initState (initialCapital : ℚ) : SimState :=
  { price := 1, cash := initialCapital, holdings := 0,
    total := initialCapital, pos := false }

/-- One iteration of the simulation loop (src/backtest.py lines 225-266) on
a bar `(price, signal)`, where `signal` is the mapped per-bar signal column
(`none` for NaN).  The three branches are the source's BUY
(`signal == 1 and current_position == 0`), SELL
(`signal == -1 and current_position == 1`) and no-change branches; line 266
then sets `total = cash + holdings`. -/
def simStep (commission : ℚ) (bar : ℚ × Option ℤ) (st : SimState) : SimState :=
  let price := bar.1
  let next : SimState :=
    if bar.2 = some 1 ∧ st.pos = false then
      let shares := st.cash / price / (1 + commission)
      { price := price, cash := 0, holdings := shares * price,
        total := 0, pos := true }
    else if bar.2 = some (-1) ∧ st.pos = true then
      let shares := st.holdings / st.price
      { price := price, cash := shares * price * (1 - commission),
        holdings := 0, total := 0, pos := false }
    else
      { price := price, cash := st.cash,
        holdings := if st.pos then st.holdings * (price / st.price) else 0,
        total := 0, pos := st.pos }
  { next with total := next.cash + next.holdings }

/-- The simulation state after the loop has processed the first `i` bars. -/
def simStateAt (initialCapital commission : ℚ)
    (bars : List (ℚ × Option ℤ)) (i : ℕ) : SimState :=
  (bars.take i).foldl (fun st b => simStep commission b st)
    (initState initialCapital)

/-- The `portfolio` rows produced by `_simulate_portfolio`: row `i` is the
state after the loop body has run on bars `0..i`. -/
def simulate (initialCapital commission : ℚ)
    (bars : List (ℚ × Option ℤ)) : List SimState :=
  (List.range bars.length).map
    (fun i => simStateAt initialCapital commission bars (i + 1))

/-- The `position` column (src/backtest.py lines 214-215): the cumulative
sum of the signal column with NaN as 0, clamped elementwise into `[0, 1]`. -/
def posClamp (sigs : List (Option ℤ)) (i : ℕ) : ℤ :=
  max (min (((sigs.take (i + 1)).map (fun s => s.getD 0)).sum) 1) 0

/-! ## Basic lemmas about the simulation loop -/

lemma simStateAt_zero (cap comm : ℚ) (bars : List (ℚ × Option ℤ)) :
    simStateAt cap comm bars 0 = initState cap := rfl

lemma simStateAt_succ (cap comm : ℚ) (bars : List (ℚ × Option ℤ)) (i : ℕ)
    (h : i < bars.length) :
    simStateAt cap comm bars (i + 1)
      = simStep comm (bars.get ⟨i, h⟩) (simStateAt cap comm bars i) := by
  unfold simStateAt
  rw [List.take_succ, List.foldl_append, List.getElem?_eq_getElem h]
  rfl

lemma simulate_length (cap comm : ℚ) (bars : List (ℚ × Option ℤ)) :
    (simulate cap comm bars).length = bars.length := by
  simp [simulate]

lemma simulate_get (cap comm : ℚ) (bars : List (ℚ × Option ℤ)) (i : ℕ)
    (h : i < (simulate cap comm bars).length) :
    (simulate cap comm bars).get ⟨i, h⟩ = simStateAt cap comm bars (i + 1) := by
  simp [simulate, List.get_eq_getElem]

/-- The BUY branch of the loop body (signal 1 while flat). -/
lemma simStep_buy (comm : ℚ) (bar : ℚ × Option ℤ) (st : SimState)
    (h1 : bar.2 = some 1) (h2 : st.pos = false) :
    simStep comm bar st
      = { price := bar.1, cash := 0,
          holdings := st.cash / bar.1 / (1 + comm) * bar.1,
          total := 0 + st.cash / bar.1 / (1 + comm) * bar.1, pos := true } := by
  simp [simStep, h1, h2]

/-- The SELL branch of the loop body (signal -1 while invested). -/
lemma simStep_sell (comm : ℚ) (bar : ℚ × Option ℤ) (st : SimState)
    (h1 : bar.2 = some (-1)) (h2 : st.pos = true) :
    simStep comm bar st
      = { price := bar.1,
          cash := st.holdings / st.price * bar.1 * (1 - comm),
          holdings := 0,
          total := st.holdings / st.price * bar.1 * (1 - comm) + 0,
          pos := false } := by
  have hne : ¬(bar.2 = some 1 ∧ st.pos = false) := by
    rintro ⟨h, h2f⟩; rw [h2] at h2f; exact Bool.noConfusion h2f
  simp [simStep, hne, h1, h2]

/-- The no-change branch of the loop body. -/
lemma simStep_hold (comm : ℚ) (bar : ℚ × Option ℤ) (st : SimState)
    (h1 : ¬(bar.2 = some 1 ∧ st.pos = false))
    (h2 : ¬(bar.2 = some (-1) ∧ st.pos = true)) :
    simStep comm bar st
      = { price := bar.1, cash := st.cash,
          holdings := if st.pos then st.holdings * (bar.1 / st.price) else 0,
          total := st.cash + (if st.pos then st.holdings * (bar.1 / st.price) else 0),
          pos := st.pos } := by
  simp [simStep, h1, h2]

lemma div_div_mul_cancel_left (c p q : ℚ) (hp : p ≠ 0) :
    c / p / q * p = c / q := by
  rcases eq_or_ne q 0 with h | h
  · simp [h]
  · field_simp
    ring

/-- Loop invariant: nonnegative cash and holdings, positive recorded price,
`total` equal to `cash + holdings`, and no holdings while flat. -/
def SimInv (st : SimState) : Prop :=
  0 ≤ st.cash ∧ 0 ≤ st.holdings ∧ 0 < st.price
    ∧ st.total = st.cash + st.holdings ∧ (st.pos = false → st.holdings = 0)

lemma simStep_inv {comm : ℚ} (hc0 : 0 ≤ comm) (hc1 : comm < 1)
    {bar : ℚ × Option ℤ} (hp : 0 < bar.1) {st : SimState} (h : SimInv st) :
    SimInv (simStep comm bar st) := by
  obtain ⟨hcash, hhold, hprice, -, hflat⟩ := h
  by_cases h1 : bar.2 = some 1 ∧ st.pos = false
  · rw [simStep_buy comm bar st h1.1 h1.2]
    refine ⟨le_refl 0, ?_, hp, by ring, by simp⟩
    have : 0 ≤ st.cash / bar.1 / (1 + comm) :=
      div_nonneg (div_nonneg hcash hp.le) (by linarith)
    exact mul_nonneg this hp.le
  · by_cases h2 : bar.2 = some (-1) ∧ st.pos = true
    · rw [simStep_sell comm bar st h2.1 h2.2]
      refine ⟨?_, le_refl 0, hp, by ring, fun _ => rfl⟩
      have : 0 ≤ st.holdings / st.price := div_nonneg hhold hprice.le
      exact mul_nonneg (mul_nonneg this hp.le) (by linarith)
    · rw [simStep_hold comm bar st h1 h2]
      have hh : 0 ≤ (if st.pos then st.holdings * (bar.1 / st.price) else 0) := by
        split
        · exact mul_nonneg hhold (div_nonneg hp.le hprice.le)
        · exact le_refl 0
      refine ⟨hcash, hh, hp, rfl, fun hf => ?_⟩
      have hsp : st.pos = false := hf
      simp [hsp]

lemma simInv_foldl {comm : ℚ} (hc0 : 0 ≤ comm) (hc1 : comm < 1) :
    ∀ (l : List (ℚ × Option ℤ)), (∀ b ∈ l, 0 < b.1) →
      ∀ st : SimState, SimInv st →
        SimInv (l.foldl (fun s b => simStep comm b s) st)
  | [], _, _, h => h
  | b :: bs, hp, st, h => by
    rw [List.foldl_cons]
    exact simInv_foldl hc0 hc1 bs (fun x hx => hp x (List.mem_cons_of_mem b hx))
      _ (simStep_inv hc0 hc1 (hp b (List.mem_cons_self b bs)) h)

lemma simInv_initState {cap : ℚ} (hcap : 0 ≤ cap) : SimInv (initState cap) := by
  refine ⟨hcap, le_refl 0, one_pos, ?_, fun _ => rfl⟩
  simp [initState]

lemma simInv_stateAt {cap comm : ℚ} (hcap : 0 ≤ cap) (hc0 : 0 ≤ comm)
    (hc1 : comm < 1) {bars : List (ℚ × Option ℤ)} (hp : ∀ b ∈ bars, 0 < b.1)
    (i : ℕ) : SimInv (simStateAt cap comm bars i) := by
  unfold simStateAt
  exact simInv_foldl hc0 hc1 _ (fun b hb => hp b (List.take_subset i bars hb))
    _ (simInv_initState hcap)

/-- C1: with strictly positive prices, each simulation row `i ≥ 1` follows
from row `i-1` by exactly one of three rules keyed on `signal[i]` and the
prior position: BUY (signal +1 while flat) puts `cash[i-1]/(1+commission)`
into holdings and zeroes cash; SELL (signal -1 while invested) converts the
shares `holdings[i-1]/price[i-1]` to cash at `price[i]*(1-commission)` and
zeroes holdings; otherwise cash is carried over and holdings are revalued by
`price[i]/price[i-1]` when invested, 0 when flat.  The BUY and SELL guards
are mutually exclusive, and the third rule applies exactly when neither
guard holds. -/
theorem simulate_step_rules (cap comm : ℚ) (bars : List (ℚ × Option ℤ))
    (hp : ∀ b ∈ bars, 0 < b.1) (i : ℕ) (h : i + 1 < bars.length) :
    ((bars.get ⟨i + 1, h⟩).2 = some 1
        ∧ (simStateAt cap comm bars (i + 1)).pos = false →
      (simStateAt cap comm bars (i + 2)).holdings
          = (simStateAt cap comm bars (i + 1)).cash / (1 + comm)
        ∧ (simStateAt cap comm bars (i + 2)).cash = 0
        ∧ (simStateAt cap comm bars (i + 2)).pos = true)
    ∧ ((bars.get ⟨i + 1, h⟩).2 = some (-1)
        ∧ (simStateAt cap comm bars (i + 1)).pos = true →
      (simStateAt cap comm bars (i + 2)).cash
          = (simStateAt cap comm bars (i + 1)).holdings
              / (simStateAt cap comm bars (i + 1)).price
              * (bars.get ⟨i + 1, h⟩).1 * (1 - comm)
        ∧ (simStateAt cap comm bars (i + 2)).holdings = 0
        ∧ (simStateAt cap comm bars (i + 2)).pos = false)
    ∧ (¬((bars.get ⟨i + 1, h⟩).2 = some 1
          ∧ (simStateAt cap comm bars (i + 1)).pos = false)
        ∧ ¬((bars.get ⟨i + 1, h⟩).2 = some (-1)
          ∧ (simStateAt cap comm bars (i + 1)).pos = true) →
      (simStateAt cap comm bars (i + 2)).cash
          = (simStateAt cap comm bars (i + 1)).cash
        ∧ (simStateAt cap comm bars (i + 2)).holdings
          = (if (simStateAt cap comm bars (i + 1)).pos = true then
              (simStateAt cap comm bars (i + 1)).holdings
                * (bars.get ⟨i + 1, h⟩).1
                / (simStateAt cap comm bars (i + 1)).price
            else 0)
        ∧ (simStateAt cap comm bars (i + 2)).pos
          = (simStateAt cap comm bars (i + 1)).pos)
    ∧ ¬(((bars.get ⟨i + 1, h⟩).2 = some 1
          ∧ (simStateAt cap comm bars (i + 1)).pos = false)
        ∧ ((bars.get ⟨i + 1, h⟩).2 = some (-1)
          ∧ (simStateAt cap comm bars (i + 1)).pos = true)) := by
  have hstep := simStateAt_succ cap comm bars (i + 1) h
  have hbar : 0 < (bars.get ⟨i + 1, h⟩).1 :=
    hp _ (List.get_mem bars (i + 1) h)
  refine ⟨?_, ?_, ?_, ?_⟩
  · rintro ⟨h1, h2⟩
    rw [hstep, simStep_buy comm _ _ h1 h2]
    refine ⟨?_, rfl, rfl⟩
    exact div_div_mul_cancel_left _ _ _ hbar.ne'
  · rintro ⟨h1, h2⟩
    rw [hstep, simStep_sell comm _ _ h1 h2]
    exact ⟨rfl, rfl, rfl⟩
  · rintro ⟨h1, h2⟩
    rw [hstep, simStep_hold comm _ _ h1 h2]
    refine ⟨rfl, ?_, rfl⟩
    split
    · exact mul_div_assoc _ _ _ |>.symm
    · rfl
  · rintro ⟨⟨h1, -⟩, ⟨h2, -⟩⟩
    rw [h1] at h2
    simp at h2

/-- Witness for C1: a three-bar run (prices 10, 12, 11; commission 1/100)
discharging the theorem's hypotheses - positive prices and the index
bound - at bar index 1, and extracting its BUY-rule conjunct.  (Bar 1 of
this input carries no signal, so the extracted implication holds with a
false antecedent; the SELL-rule guard is exercised concretely by the
witness of the index-range theorem below.) -/
theorem simulate_step_rules_witness :
    (∀ b ∈ [((10 : ℚ), (some 1 : Option ℤ)), (12, none), (11, some (-1))],
        0 < b.1)
    ∧ (([((10 : ℚ), (some 1 : Option ℤ)), (12, none), (11, some (-1))].get
          ⟨1, by decide⟩).2 = some 1
        ∧ (simStateAt 10000 (1/100)
            [((10 : ℚ), (some 1 : Option ℤ)), (12, none), (11, some (-1))]
            1).pos = false →
      (simStateAt 10000 (1/100)
          [((10 : ℚ), (some 1 : Option ℤ)), (12, none), (11, some (-1))]
          2).holdings
        = (simStateAt 10000 (1/100)
            [((10 : ℚ), (some 1 : Option ℤ)), (12, none), (11, some (-1))]
            1).cash / (1 + 1/100)
      ∧ (simStateAt 10000 (1/100)
          [((10 : ℚ), (some 1 : Option ℤ)), (12, none), (11, some (-1))]
          2).cash = 0
      ∧ (simStateAt 10000 (1/100)
          [((10 : ℚ), (some 1 : Option ℤ)), (12, none), (11, some (-1))]
          2).pos = true) :=
  ⟨by decide,
    (simulate_step_rules 10000 (1/100)
      [((10 : ℚ), (some 1 : Option ℤ)), (12, none), (11, some (-1))]
      (by decide) 0 (by decide)).1⟩

/-- C2: under nonnegative initial capital, commission in `[0, 1)` and
strictly positive prices, every row of the simulated equity curve satisfies
`total = cash + holdings`, `cash ≥ 0` and `holdings ≥ 0`. -/
theorem equity_curve_invariant (cap comm : ℚ) (bars : List (ℚ × Option ℤ))
    (hcap : 0 ≤ cap) (hc0 : 0 ≤ comm) (hc1 : comm < 1)
    (hp : ∀ b ∈ bars, 0 < b.1) :
    ∀ i (h : i < (simulate cap comm bars).length),
      ((simulate cap comm bars).get ⟨i, h⟩).total
          = ((simulate cap comm bars).get ⟨i, h⟩).cash
            + ((simulate cap comm bars).get ⟨i, h⟩).holdings
        ∧ 0 ≤ ((simulate cap comm bars).get ⟨i, h⟩).cash
        ∧ 0 ≤ ((simulate cap comm bars).get ⟨i, h⟩).holdings := by
  intro i h
  rw [simulate_get]
  have hinv := simInv_stateAt hcap hc0 hc1 hp (i + 1)
  exact ⟨hinv.2.2.2.1, hinv.1, hinv.2.1⟩

/-- Witness for C2: the default capital and commission on a two-bar series
with a BUY at bar 0. -/
theorem equity_curve_invariant_witness :
    (0 : ℚ) ≤ 10000 ∧ (0 : ℚ) ≤ 1/1000 ∧ (1 : ℚ)/1000 < 1
    ∧ (∀ b ∈ [((10 : ℚ), (some 1 : Option ℤ)), (12, none)], 0 < b.1)
    ∧ ∀ i (h : i < (simulate 10000 (1/1000)
          [((10 : ℚ), (some 1 : Option ℤ)), (12, none)]).length),
        ((simulate 10000 (1/1000)
            [((10 : ℚ), (some 1 : Option ℤ)), (12, none)]).get ⟨i, h⟩).total
            = ((simulate 10000 (1/1000)
                [((10 : ℚ), (some 1 : Option ℤ)), (12, none)]).get
                ⟨i, h⟩).cash
              + ((simulate 10000 (1/1000)
                  [((10 : ℚ), (some 1 : Option ℤ)), (12, none)]).get
                  ⟨i, h⟩).holdings
          ∧ 0 ≤ ((simulate 10000 (1/1000)
              [((10 : ℚ), (some 1 : Option ℤ)), (12, none)]).get ⟨i, h⟩).cash
          ∧ 0 ≤ ((simulate 10000 (1/1000)
              [((10 : ℚ), (some 1 : Option ℤ)), (12, none)]).get
              ⟨i, h⟩).holdings :=
  ⟨by norm_num, by norm_num, by norm_num, by decide,
    equity_curve_invariant 10000 (1/1000) _
      (by norm_num) (by norm_num) (by norm_num) (by decide)⟩

/-- C10: the simulation is total (one output row per input bar), and the
SELL branch - the only branch reading row `i-1`'s holdings and price - can
only fire at an index `i ≥ 1`, because the running position is 0 before any
bar has been processed; hence its reads of the previous row are always in
range. -/
theorem sell_branch_index_in_range (cap comm : ℚ)
    (bars : List (ℚ × Option ℤ)) :
    (simulate cap comm bars).length = bars.length
    ∧ ∀ i (h : i < bars.length),
        (bars.get ⟨i, h⟩).2 = some (-1)
          → (simStateAt cap comm bars i).pos = true
          → 1 ≤ i := by
  refine ⟨simulate_length cap comm bars, ?_⟩
  intro i h _ hpos
  rcases Nat.eq_zero_or_pos i with rfl | hi
  · rw [simStateAt_zero] at hpos
    exact absurd hpos (by simp [initState])
  · exact hi

/-- Witness for C10: a BUY at bar 0 followed by a SELL at bar 1, where the
SELL guard genuinely fires. -/
theorem sell_branch_index_in_range_witness :
    (simulate 100 0 [((1 : ℚ), (some 1 : Option ℤ)),
        (1, some (-1))]).length = 2
    ∧ (([((1 : ℚ), (some 1 : Option ℤ)), (1, some (-1))].get
          ⟨1, by decide⟩).2 = some (-1))
    ∧ (simStateAt 100 0 [((1 : ℚ), (some 1 : Option ℤ)), (1, some (-1))]
        1).pos = true
    ∧ 1 ≤ 1 :=
  ⟨(sell_branch_index_in_range 100 0 _).1.trans (by decide), by decide,
    by decide,
    (sell_branch_index_in_range 100 0
        [((1 : ℚ), (some 1 : Option ℤ)), (1, some (-1))]).2
      1 (by decide) (by decide) (by decide)⟩

/-! ## The `position` column versus the sequential cash/holdings machine -/

/-- The running cumulative sum of the mapped signal column (NaN as 0) over
the first `i` bars; `posClamp` is its elementwise clamp into `[0, 1]`. -/
def sigSum (bars : List (ℚ × Option ℤ)) (i : ℕ) : ℤ :=
  ((bars.take i).map (fun b => b.2.getD 0)).sum

lemma sigSum_succ (bars : List (ℚ × Option ℤ)) (i : ℕ)
    (h : i < bars.length) :
    sigSum bars (i + 1) = sigSum bars i + (bars.get ⟨i, h⟩).2.getD 0 := by
  have hm : i < (List.map (fun b : ℚ × Option ℤ => b.2.getD 0) bars).length := by
    simpa using h
  unfold sigSum
  rw [List.map_take, List.map_take, List.sum_take_succ _ i hm]
  congr 1
  simp [List.get_eq_getElem]

lemma posClamp_map (bars : List (ℚ × Option ℤ)) (i : ℕ) :
    posClamp (bars.map Prod.snd) i = max (min (sigSum bars (i + 1)) 1) 0 := by
  simp [posClamp, sigSum, ← List.map_take, Function.comp_def]

/-- The running position flag tracks the cumulative signal sum whenever the
sum never leaves `[0, 1]`, with positive holdings exactly while invested and
positive cash while flat. -/
lemma pos_tracks_sigSum {cap comm : ℚ} {bars : List (ℚ × Option ℤ)}
    (hcap : 0 < cap) (hc0 : 0 ≤ comm) (hc1 : comm < 1)
    (hp : ∀ b ∈ bars, 0 < b.1)
    (hsig : ∀ b ∈ bars, b.2 = none ∨ b.2 = some 1 ∨ b.2 = some (-1))
    (hsum : ∀ j, j ≤ bars.length → 0 ≤ sigSum bars j ∧ sigSum bars j ≤ 1) :
    ∀ i, i ≤ bars.length →
      ((simStateAt cap comm bars i).pos = true ↔ sigSum bars i = 1)
      ∧ ((simStateAt cap comm bars i).pos = true
          → 0 < (simStateAt cap comm bars i).holdings)
      ∧ ((simStateAt cap comm bars i).pos = false
          → (simStateAt cap comm bars i).holdings = 0
            ∧ 0 < (simStateAt cap comm bars i).cash) := by
  intro i
  induction i with
  | zero =>
    intro _
    refine ⟨by simp [simStateAt_zero, initState, sigSum], ?_, ?_⟩
    · rw [simStateAt_zero]
      intro hfalse
      exact absurd hfalse (by simp [initState])
    · intro _
      exact ⟨rfl, hcap⟩
  | succ i ih =>
    intro hlen
    have hi : i < bars.length := Nat.lt_of_succ_le hlen
    obtain ⟨ihiff, ihinv, ihflat⟩ := ih (Nat.le_of_lt hi)
    have hinv := simInv_stateAt hcap.le hc0 hc1 hp i
    obtain ⟨-, -, hprice, -, -⟩ := hinv
    have hstep := simStateAt_succ cap comm bars i hi
    have hbar : 0 < (bars.get ⟨i, hi⟩).1 := hp _ (List.get_mem bars i hi)
    have hssucc := sigSum_succ bars i hi
    rcases hsig _ (List.get_mem bars i hi) with hnone | hone | hneg
    · -- NaN signal: no-change branch, sum unchanged
      have hg1 : ¬((bars.get ⟨i, hi⟩).2 = some 1
          ∧ (simStateAt cap comm bars i).pos = false) := by
        rintro ⟨hx, -⟩; rw [hnone] at hx; cases hx
      have hg2 : ¬((bars.get ⟨i, hi⟩).2 = some (-1)
          ∧ (simStateAt cap comm bars i).pos = true) := by
        rintro ⟨hx, -⟩; rw [hnone] at hx; cases hx
      rw [hstep, simStep_hold comm _ _ hg1 hg2]
      rw [hssucc, hnone]
      simp only [Option.getD_none, add_zero]
      refine ⟨ihiff, ?_, ?_⟩
      · intro hpos
        have hpos' : (simStateAt cap comm bars i).pos = true := hpos
        simp only [hpos', if_true]
        exact mul_pos (ihinv hpos') (div_pos hbar hprice)
      · intro hpos
        have hpos' : (simStateAt cap comm bars i).pos = false := hpos
        simp only [hpos', if_false]
        exact ⟨rfl, (ihflat hpos').2⟩
    · -- signal +1: the sum bound forces the prior position to be flat
      have hsum1 : sigSum bars (i + 1) ≤ 1 := (hsum _ hlen).2
      have hsum0 : 0 ≤ sigSum bars i := (hsum _ (Nat.le_of_lt hi)).1
      have hzero : sigSum bars i = 0 := by
        rw [hssucc, hone] at hsum1
        simp only [Option.getD_some] at hsum1
        omega
      have hflat : (simStateAt cap comm bars i).pos = false := by
        rcases Bool.eq_false_or_eq_true (simStateAt cap comm bars i).pos
          with ht | hf
        · have h1 := ihiff.mp ht
          omega
        · exact hf
      rw [hstep, simStep_buy comm _ _ hone hflat]
      rw [hssucc, hone]
      simp only [Option.getD_some]
      refine ⟨by simp [hzero], ?_, ?_⟩
      · intro _
        have hcashpos : 0 < (simStateAt cap comm bars i).cash :=
          (ihflat hflat).2
        exact mul_pos
          (div_pos (div_pos hcashpos hbar) (by linarith)) hbar
      · intro hfalse
        exact absurd hfalse (by simp)
    · -- signal -1: the sum bound forces the prior position to be invested
      have hsum0 : 0 ≤ sigSum bars (i + 1) := (hsum _ hlen).1
      have hsum1 : sigSum bars i ≤ 1 := (hsum _ (Nat.le_of_lt hi)).2
      have hone' : sigSum bars i = 1 := by
        rw [hssucc, hneg] at hsum0
        simp only [Option.getD_some] at hsum0
        omega
      have hpos : (simStateAt cap comm bars i).pos = true := ihiff.mpr hone'
      rw [hstep, simStep_sell comm _ _ hneg hpos]
      rw [hssucc, hneg]
      simp only [Option.getD_some]
      refine ⟨by simp [hone'], ?_, ?_⟩
      · intro hfalse
        exact absurd hfalse (by simp)
      · intro _
        refine ⟨by trivial, ?_⟩
        exact mul_pos (mul_pos (div_pos (ihinv hpos) hprice) hbar)
          (by linarith)

/-- Counterexample to C5 as stated: for the mapped signal sequence
`[+1, +1, -1]` (prices all 1, capital 100, commission 0) the clamped
cumulative sum at bar 2 is `clamp(1+1-1) = 1`, yet the sequential machine
sold at bar 2 - its holdings are 0 and its position flag is flat. -/
theorem position_column_cex :
    posClamp [some 1, some 1, some (-1)] 2 = 1
    ∧ (simStateAt 100 0
        [((1 : ℚ), (some 1 : Option ℤ)), (1, some 1), (1, some (-1))]
        3).pos = false
    ∧ (simStateAt 100 0
        [((1 : ℚ), (some 1 : Option ℤ)), (1, some 1), (1, some (-1))]
        3).holdings = 0
    ∧ posClamp [some 1, some 1, some (-1)] 2
        ≠ (if 0 < (simStateAt 100 0
            [((1 : ℚ), (some 1 : Option ℤ)), (1, some 1), (1, some (-1))]
            3).holdings then 1 else 0) := by
  refine ⟨by decide, by decide, by decide, ?_⟩
  have h : ¬(0 : ℚ) < (simStateAt 100 0
      [((1 : ℚ), (some 1 : Option ℤ)), (1, some 1), (1, some (-1))]
      3).holdings := by decide
  rw [if_neg h]
  decide

/-- C5 (amended): the clamped-cumulative-sum `position` column agrees with
the invested/flat state of the sequential cash-and-holdings machine (1 iff
holdings positive) for mapped signal sequences whose running cumulative sum
never leaves `[0, 1]` - in particular whenever buys and sells strictly
alternate starting with a buy.  (The unconstrained claim fails: see the
counterexample.) -/
theorem position_column_amended (cap comm : ℚ) (bars : List (ℚ × Option ℤ))
    (hcap : 0 < cap) (hc0 : 0 ≤ comm) (hc1 : comm < 1)
    (hp : ∀ b ∈ bars, 0 < b.1)
    (hsig : ∀ b ∈ bars, b.2 = none ∨ b.2 = some 1 ∨ b.2 = some (-1))
    (hsum : ∀ j, j ≤ bars.length → 0 ≤ sigSum bars j ∧ sigSum bars j ≤ 1) :
    ∀ i, i < bars.length →
      posClamp (bars.map Prod.snd) i
          = (if (simStateAt cap comm bars (i + 1)).pos = true then 1 else 0)
      ∧ ((simStateAt cap comm bars (i + 1)).pos = true
          ↔ 0 < (simStateAt cap comm bars (i + 1)).holdings) := by
  intro i hi
  obtain ⟨hiff, hinv, hflat⟩ :=
    pos_tracks_sigSum hcap hc0 hc1 hp hsig hsum (i + 1) hi
  have hb := hsum (i + 1) hi
  constructor
  · rw [posClamp_map]
    rcases Bool.eq_false_or_eq_true (simStateAt cap comm bars (i + 1)).pos
      with ht | hf
    · rw [ht, hiff.mp ht]
      simp
    · rw [hf]
      simp only [Bool.false_eq_true, if_false]
      have hne : sigSum bars (i + 1) ≠ 1 := by
        intro hx
        have hy := hiff.mpr hx
        rw [hy] at hf
        exact Bool.noConfusion hf
      obtain ⟨hb0, hb1⟩ := hb
      omega
  · constructor
    · exact hinv
    · intro hh
      rcases Bool.eq_false_or_eq_true (simStateAt cap comm bars (i + 1)).pos
        with ht | hf
      · exact ht
      · rw [(hflat hf).1] at hh
        exact absurd hh (lt_irrefl 0)

/-- Witness for the amended C5: an alternating buy/sell sequence over two
bars with the default commission. -/
theorem position_column_amended_witness :
    (0 : ℚ) < 100 ∧ (0 : ℚ) ≤ 0 ∧ (0 : ℚ) < 1
    ∧ ∀ i, i < ([((2 : ℚ), (some 1 : Option ℤ)), (3, some (-1))]).length →
        posClamp ([((2 : ℚ), (some 1 : Option ℤ)),
            (3, some (-1))].map Prod.snd) i
            = (if (simStateAt 100 0
                [((2 : ℚ), (some 1 : Option ℤ)), (3, some (-1))]
                (i + 1)).pos = true then 1 else 0)
        ∧ ((simStateAt 100 0
              [((2 : ℚ), (some 1 : Option ℤ)), (3, some (-1))]
              (i + 1)).pos = true
            ↔ 0 < (simStateAt 100 0
                [((2 : ℚ), (some 1 : Option ℤ)), (3, some (-1))]
                (i + 1)).holdings) :=
  ⟨by norm_num, le_refl 0, by norm_num,
    position_column_amended 100 0 _ (by norm_num) (le_refl 0) (by norm_num)
      (by decide) (by decide) (by decide)⟩

/-! ## Signal-to-bar mapping and `Backtester.run` (src/backtest.py) -/

/-- `(combined[time_col] - row['timestamp']).abs().idxmin()`
(src/backtest.py line 173): the first index minimizing the absolute
difference between the bar timestamps and the signal timestamp.  A strict
comparison in the fold keeps the earlier index on ties, exactly as
`idxmin` returns the first occurrence of the minimum. -/
def closestIdx (times : List ℚ) (t : ℚ) : ℕ :=
  (List.range times.length).foldl
    (fun best j =>
      if |times.getD j 0 - t| < |times.getD best 0 - t| then j else best) 0

/-- One signal's write into the per-bar signal column
(src/backtest.py lines 171-177): BUY writes `1`, SELL writes `-1` at the
closest bar, any other action leaves the column unchanged. -/
def mapStep (times : List ℚ) (acc : List (Option ℤ))
    (s : ℚ × SignalAction) : List (Option ℤ) :=
  if s.2 = SignalAction.buy then acc.set (closestIdx times s.1) (some 1)
  else if s.2 = SignalAction.sell then
    acc.set (closestIdx times s.1) (some (-1))
  else acc

/-- The per-bar `signal` column built by `Backtester.run`
(src/backtest.py lines 168-177): a column of NaN, then one write per signal
in chronological signal order. -/
def mapSignals (times : List ℚ) (sigs : List (ℚ × SignalAction)) :
    List (Option ℤ) :=
  sigs.foldl (mapStep times) (List.replicate times.length none)

lemma foldl_argmin (f : ℕ → ℚ) :
    ∀ (l : List ℕ) (a : ℕ),
      ((l.foldl (fun b j => if f j < f b then j else b) a = a
          ∨ l.foldl (fun b j => if f j < f b then j else b) a ∈ l)
        ∧ f (l.foldl (fun b j => if f j < f b then j else b) a) ≤ f a
        ∧ ∀ j ∈ l, f (l.foldl (fun b j => if f j < f b then j else b) a) ≤ f j)
  | [], a => ⟨Or.inl rfl, le_refl _, by simp⟩
  | x :: xs, a => by
    rw [List.foldl_cons]
    by_cases h : f x < f a
    · rw [if_pos h]
      obtain ⟨hmem, hle, hall⟩ := foldl_argmin f xs x
      refine ⟨?_, le_trans hle h.le, ?_⟩
      · rcases hmem with h1 | h1
        · exact Or.inr (by rw [h1]; exact List.mem_cons_self x xs)
        · exact Or.inr (List.mem_cons_of_mem x h1)
      · intro j hj
        rcases List.mem_cons.mp hj with rfl | hj
        · exact hle
        · exact hall j hj
    · rw [if_neg h]
      obtain ⟨hmem, hle, hall⟩ := foldl_argmin f xs a
      refine ⟨?_, hle, ?_⟩
      · rcases hmem with h1 | h1
        · exact Or.inl h1
        · exact Or.inr (List.mem_cons_of_mem x h1)
      · intro j hj
        rcases List.mem_cons.mp hj with rfl | hj
        · exact le_trans hle (not_lt.mp h)
        · exact hall j hj

lemma closestIdx_lt (times : List ℚ) (t : ℚ) (h : times ≠ []) :
    closestIdx times t < times.length := by
  have hlen : 0 < times.length := List.length_pos.mpr h
  obtain ⟨hmem, -, -⟩ :=
    foldl_argmin (fun j => |times.getD j 0 - t|) (List.range times.length) 0
  rcases hmem with h1 | h1
  · rw [closestIdx, h1]; exact hlen
  · exact List.mem_range.mp h1

lemma closestIdx_min (times : List ℚ) (t : ℚ) :
    ∀ j < times.length,
      |times.getD (closestIdx times t) 0 - t| ≤ |times.getD j 0 - t| := by
  intro j hj
  obtain ⟨-, -, hall⟩ :=
    foldl_argmin (fun j => |times.getD j 0 - t|) (List.range times.length) 0
  exact hall j (List.mem_range.mpr hj)

lemma mapStep_length (times : List ℚ) (acc : List (Option ℤ))
    (s : ℚ × SignalAction) : (mapStep times acc s).length = acc.length := by
  unfold mapStep
  split_ifs <;> simp

lemma mapSignals_length (times : List ℚ) :
    ∀ (sigs : List (ℚ × SignalAction)) (acc : List (Option ℤ)),
      (sigs.foldl (mapStep times) acc).length = acc.length
  | [], _ => rfl
  | s :: rest, acc => by
    rw [List.foldl_cons, mapSignals_length times rest, mapStep_length]

lemma mapSignals_getD (times : List ℚ) (sigs : List (ℚ × SignalAction))
    (hBS : ∀ s ∈ sigs, s.2 = SignalAction.buy ∨ s.2 = SignalAction.sell) :
    ∀ i, i < times.length →
      (mapSignals times sigs).getD i none
        = ((sigs.filter
              (fun s => decide (closestIdx times s.1 = i))).getLast?).map
            (fun s => if s.2 = SignalAction.buy then (1 : ℤ) else -1) := by
  induction sigs using List.reverseRecOn with
  | nil =>
    intro i hi
    simp [mapSignals, List.getD]
  | append_singleton l s ih =>
    intro i hi
    have hlen : (mapSignals times l).length = times.length := by
      rw [mapSignals, mapSignals_length, List.length_replicate]
    have hne : times ≠ [] := by
      intro hx; rw [hx] at hi; exact absurd hi (by simp)
    have hclt : closestIdx times s.1 < (mapSignals times l).length := by
      rw [hlen]; exact closestIdx_lt times s.1 hne
    have hstep : mapSignals times (l ++ [s])
        = mapStep times (mapSignals times l) s := by
      rw [mapSignals, List.foldl_append]; rfl
    have hsplit := List.filter_append
      (p := fun x : ℚ × SignalAction => decide (closestIdx times x.1 = i)) l [s]
    have hl := ih (fun x hx => hBS x (List.mem_append_left [s] hx)) i hi
    rcases hBS s (List.mem_append_right l (List.mem_singleton_self s))
      with hbuy | hsell
    · rw [hstep, mapStep, if_pos hbuy]
      by_cases hidx : closestIdx times s.1 = i
      · have hd : decide (closestIdx times s.1 = i) = true := by
          simp [hidx]
        rw [hsplit, List.filter_singleton, hd, cond_true,
          List.getLast?_concat]
        rw [List.getD_eq_getElem?_getD, hidx,
          List.getElem?_set_eq_of_lt _ (hidx ▸ hclt)]
        simp [hbuy]
      · have hd : decide (closestIdx times s.1 = i) = false := by
          simp [hidx]
        rw [hsplit, List.filter_singleton, hd, cond_false, List.append_nil]
        rw [List.getD_eq_getElem?_getD,
          List.getElem?_set_ne (by omega),
          ← List.getD_eq_getElem?_getD]
        exact hl
    · have hnb : ¬s.2 = SignalAction.buy := by
        rw [hsell]; intro hx; cases hx
      rw [hstep, mapStep, if_neg hnb, if_pos hsell]
      by_cases hidx : closestIdx times s.1 = i
      · have hd : decide (closestIdx times s.1 = i) = true := by
          simp [hidx]
        rw [hsplit, List.filter_singleton, hd, cond_true,
          List.getLast?_concat]
        rw [List.getD_eq_getElem?_getD, hidx,
          List.getElem?_set_eq_of_lt _ (hidx ▸ hclt)]
        simp [hnb]
      · have hd : decide (closestIdx times s.1 = i) = false := by
          simp [hidx]
        rw [hsplit, List.filter_singleton, hd, cond_false, List.append_nil]
        rw [List.getD_eq_getElem?_getD,
          List.getElem?_set_ne (by omega),
          ← List.getD_eq_getElem?_getD]
        exact hl

/-- The `BacktestResult` dictionary assembled by `Backtester.run`
(src/backtest.py lines 186-196), restricted to the fields computed by the
verified components (the metrics block and the date-range strings are
dictionary formatting over the same portfolio rows). -/
structure BacktestResult where
  signals : ℕ
  buySignals : ℕ
  sellSignals : ℕ
  portfolio : List SimState

/-- `Backtester.run(df)` (src/backtest.py lines 121-198): abort with a
null result on an empty bar series; generate signals (indicator computation
is composed into `generateSignals`); abort with a null result when no
signals were produced; otherwise map each signal onto its closest bar,
simulate the portfolio, and return a result.  The embedding is a total
function: every branch returns a value. -/
def runBacktest {β : Type} (initialCapital commission : ℚ)
    (btime bclose : β → ℚ) (generateSignals : List β → List Sig)
    (bars : List β) : Option BacktestResult :=
  if bars.isEmpty then none
  else
    let signals := generateSignals bars
    if signals.isEmpty then none
    else
      let mapped := mapSignals (bars.map btime)
        (signals.map (fun s => (s.time, s.action)))
      let portfolio := simulate initialCapital commission
        ((bars.map bclose).zip mapped)
      some { signals := signals.length,
             buySignals := (signals.filter
               (fun s => decide (s.action = SignalAction.buy))).length,
             sellSignals := (signals.filter
               (fun s => decide (s.action = SignalAction.sell))).length,
             portfolio := portfolio }

/-- C3: `Backtester.run` on an empty bar series, or on a series for which
the strategy generates no signals, returns a null result; the embedded
`runBacktest` is a total function, so no exception can escape. -/
theorem run_null_on_empty_or_no_signals {β : Type} (cap comm : ℚ)
    (btime bclose : β → ℚ) (gen : List β → List Sig) (bars : List β)
    (h : bars = [] ∨ gen bars = []) :
    runBacktest cap comm btime bclose gen bars = none := by
  unfold runBacktest
  rcases h with rfl | h
  · rfl
  · by_cases hb : bars.isEmpty
    · simp [hb]
    · simp [hb, h]

/-- Witness for C3: a one-bar series whose strategy yields no signals. -/
theorem run_null_on_empty_or_no_signals_witness :
    ([(5 : ℚ)] = [] ∨ (fun _ : List ℚ => ([] : List Sig)) [(5 : ℚ)] = [])
    ∧ runBacktest 10000 (1/1000) id id
        (fun _ : List ℚ => ([] : List Sig)) [(5 : ℚ)] = none :=
  ⟨Or.inr rfl,
    run_null_on_empty_or_no_signals 10000 (1/1000) id id
      (fun _ => []) [(5 : ℚ)] (Or.inr rfl)⟩

/-- C9: every signal is assigned to a bar whose timestamp minimizes the
absolute difference to the signal's timestamp; when several signals map to
one bar the last one in chronological signal order wins; BUY maps to `+1`,
SELL to `-1`; bars no signal maps to carry none. -/
theorem signal_mapping_spec (times : List ℚ)
    (sigs : List (ℚ × SignalAction))
    (hBS : ∀ s ∈ sigs, s.2 = SignalAction.buy ∨ s.2 = SignalAction.sell) :
    (∀ s ∈ sigs, ∀ j < times.length,
      |times.getD (closestIdx times s.1) 0 - s.1| ≤ |times.getD j 0 - s.1|)
    ∧ ∀ i, i < times.length →
        (mapSignals times sigs).getD i none
          = ((sigs.filter
                (fun s => decide (closestIdx times s.1 = i))).getLast?).map
              (fun s => if s.2 = SignalAction.buy then (1 : ℤ) else -1) :=
  ⟨fun s _ => closestIdx_min times s.1, mapSignals_getD times sigs hBS⟩

/-- Witness for C9: three bars, two BUYs colliding on bar 1 and one SELL on
bar 2; the column is `[none, +1 overwritten by the later BUY, -1]`. -/
theorem signal_mapping_spec_witness :
    (∀ s ∈ [((95 : ℚ), SignalAction.buy), (98, SignalAction.buy),
        (199, SignalAction.sell)],
      s.2 = SignalAction.buy ∨ s.2 = SignalAction.sell)
    ∧ ((∀ s ∈ [((95 : ℚ), SignalAction.buy), (98, SignalAction.buy),
          (199, SignalAction.sell)],
        ∀ j < [(0 : ℚ), 100, 200].length,
          |[(0 : ℚ), 100, 200].getD
              (closestIdx [(0 : ℚ), 100, 200] s.1) 0 - s.1|
            ≤ |[(0 : ℚ), 100, 200].getD j 0 - s.1|)
      ∧ ∀ i, i < [(0 : ℚ), 100, 200].length →
          (mapSignals [(0 : ℚ), 100, 200]
              [((95 : ℚ), SignalAction.buy), (98, SignalAction.buy),
                (199, SignalAction.sell)]).getD i none
            = (([((95 : ℚ), SignalAction.buy), (98, SignalAction.buy),
                  (199, SignalAction.sell)].filter
                  (fun s => decide (closestIdx [(0 : ℚ), 100, 200] s.1
                    = i))).getLast?).map
                (fun s => if s.2 = SignalAction.buy then (1 : ℤ) else -1)) :=
  ⟨by decide,
    signal_mapping_spec [(0 : ℚ), 100, 200]
      [((95 : ℚ), SignalAction.buy), (98, SignalAction.buy),
        (199, SignalAction.sell)] (by decide)⟩

/-! ## MA Crossover strategy (src/app/strategy/ma_crossover.py) -/

/-- `MACrossoverStrategy.__init__` parameters. -/
structure MAConfig where
  fastMA : ℕ
  slowMA : ℕ
  rsiPeriod : ℕ
  rsiOverbought : ℚ
  rsiOversold : ℚ
  cooldownMinutes : ℚ
deriving DecidableEq, Repr

/-- One row of the DataFrame seen by `MACrossoverStrategy.generate_signals`:
time column, ticker, Close, and the (possibly NaN) `ma<fast>`, `ma<slow>`
and `rsi<period>` columns. -/
structure MABar where
  time : ℚ
  ticker : String
  close : ℚ
  fastMA : Option ℚ
  slowMA : Option ℚ
  rsi : Option ℚ
deriving DecidableEq, Repr

/-- `golden_cross` (src/app/strategy/ma_crossover.py line 103):
`fast_ma_prev < slow_ma_prev AND fast_ma > slow_ma`, where the `_prev`
columns are `shift(1)` (NaN at the first row). -/
def goldenCross (prev : Option MABar) (b : MABar) : Bool :=
  match prev with
  | none => false
  | some p => optLtB p.fastMA p.slowMA && optGtB b.fastMA b.slowMA

/-- `death_cross` (src/app/strategy/ma_crossover.py line 106):
`fast_ma_prev > slow_ma_prev AND fast_ma < slow_ma`. -/
def deathCross (prev : Option MABar) (b : MABar) : Bool :=
  match prev with
  | none => false
  | some p => optGtB p.fastMA p.slowMA && optLtB b.fastMA b.slowMA

/-! ## MACD + Stochastic strategy (src/app/strategy/macd_stochastic.py) -/

/-- `MACDStochasticStrategy.__init__` parameters (`signalPeriod` embeds the
`signal` argument). -/
structure MSConfig where
  fast : ℕ
  slow : ℕ
  signalPeriod : ℕ
  stochK : ℕ
  stochD : ℕ
  smoothK : ℕ
  stochOverbought : ℚ
  stochOversold : ℚ
  cooldownMinutes : ℚ
deriving DecidableEq, Repr

/-- One row of the DataFrame seen by
`MACDStochasticStrategy.generate_signals`: time, ticker, Close and the
(possibly NaN) `macd`, `macd_signal`, `macd_hist`, `stoch_k<k>`,
`stoch_d<k>` columns. -/
structure MSBar where
  time : ℚ
  ticker : String
  close : ℚ
  macd : Option ℚ
  macdSignal : Option ℚ
  macdHist : Option ℚ
  stochK : Option ℚ
  stochD : Option ℚ
deriving DecidableEq, Repr

/-- The `macd_prev` column: `macd.shift(1)`, NaN at the first row. -/
def prevMacd : Option MSBar → Option ℚ
  | none => none
  | some p => p.macd

/-- The `macd_signal_prev` column. -/
def prevMacdSignal : Option MSBar → Option ℚ
  | none => none
  | some p => p.macdSignal

/-- The `stoch_k_prev` column. -/
def prevStochK : Option MSBar → Option ℚ
  | none => none
  | some p => p.stochK

/-- The `stoch_d_prev` column. -/
def prevStochD : Option MSBar → Option ℚ
  | none => none
  | some p => p.stochD

/-- `macd_cross_above` (src/app/strategy/macd_stochastic.py line 112). -/
def macdCrossAbove (prev : Option MSBar) (b : MSBar) : Bool :=
  optLtB (prevMacd prev) (prevMacdSignal prev) && optGtB b.macd b.macdSignal

/-- `macd_cross_below` (src/app/strategy/macd_stochastic.py line 115). -/
def macdCrossBelow (prev : Option MSBar) (b : MSBar) : Bool :=
  optGtB (prevMacd prev) (prevMacdSignal prev) && optLtB b.macd b.macdSignal

/-- `stoch_cross_above` (src/app/strategy/macd_stochastic.py line 118). -/
def stochCrossAbove (prev : Option MSBar) (b : MSBar) : Bool :=
  optLtB (prevStochK prev) (prevStochD prev) && optGtB b.stochK b.stochD

/-- `stoch_cross_below` (src/app/strategy/macd_stochastic.py line 121). -/
def stochCrossBelow (prev : Option MSBar) (b : MSBar) : Bool :=
  optGtB (prevStochK prev) (prevStochD prev) && optLtB b.stochK b.stochD

/-- The BUY guard of the main loop
(src/app/strategy/macd_stochastic.py line 222):
`macd_cross_above and stoch_k < 50`. -/
def msBuyCond (prev : Option MSBar) (b : MSBar) : Bool :=
  macdCrossAbove prev b && optLtB b.stochK (some 50)

/-- The SELL guard of the main loop
(src/app/strategy/macd_stochastic.py line 255):
`macd_cross_below and stoch_k > 50`. -/
def msSellCond (prev : Option MSBar) (b : MSBar) : Bool :=
  macdCrossBelow prev b && optGtB b.stochK (some 50)

/-! ## Bollinger Bands strategy guards (src/app/strategy/bollinger_bands.py) -/

/-- `BBandsStrategy.__init__` parameters. -/
structure BBConfig where
  bbLength : ℕ
  bbStd : ℚ
  rsiPeriod : ℕ
  rsiOverbought : ℚ
  rsiOversold : ℚ
  cooldownMinutes : ℚ
  meanReversion : Bool
deriving DecidableEq, Repr

/-- One row of the DataFrame seen by `BBandsStrategy.generate_signals`. -/
structure BBBar where
  time : ℚ
  ticker : String
  close : ℚ
  bbLower : Option ℚ
  bbMiddle : Option ℚ
  bbUpper : Option ℚ
  rsi : Option ℚ
deriving DecidableEq, Repr

/-- Mean-reversion BUY guard (src/app/strategy/bollinger_bands.py
line 120): `Close <= bb_lower and rsi <= rsi_oversold`. -/
def bbMeanRevBuyCond (cfg : BBConfig) (b : BBBar) : Bool :=
  optLeB (some b.close) b.bbLower && optLeB b.rsi (some cfg.rsiOversold)

/-- Mean-reversion SELL guard (src/app/strategy/bollinger_bands.py
line 141): `Close >= bb_upper and rsi >= rsi_overbought`. -/
def bbMeanRevSellCond (cfg : BBConfig) (b : BBBar) : Bool :=
  optGeB (some b.close) b.bbUpper && optGeB b.rsi (some cfg.rsiOverbought)

/-- Breakout BUY guard (src/app/strategy/bollinger_bands.py lines
167-169): previous close below the middle band, current close above it,
`50 < rsi < rsi_overbought`. -/
def bbBreakoutBuyCond (cfg : BBConfig) (p b : BBBar) : Bool :=
  optLtB (some p.close) p.bbMiddle && optGtB (some b.close) b.bbMiddle
    && optGtB b.rsi (some 50) && optLtB b.rsi (some cfg.rsiOverbought)

/-- Breakout SELL guard (src/app/strategy/bollinger_bands.py lines
191-193): mirror of the breakout BUY guard. -/
def bbBreakoutSellCond (cfg : BBConfig) (p b : BBBar) : Bool :=
  optGtB (some p.close) p.bbMiddle && optLtB (some b.close) b.bbMiddle
    && optLtB b.rsi (some 50) && optGtB b.rsi (some cfg.rsiOversold)

/-! ## Mutual exclusivity and the cooldown query -/

lemma optLtB_optGtB_false (a b : Option ℚ) :
    optLtB a b = true → optGtB a b = true → False := by
  cases a <;> cases b <;> simp [optLtB, optGtB]
  intro h1
  exact h1.le

lemma optLeB_optGeB_sep (r : Option ℚ) (x y : ℚ) (h : y < x) :
    optLeB r (some y) = true → optGeB r (some x) = true → False := by
  cases r with
  | none => simp [optLeB]
  | some v =>
    simp [optLeB, optGeB]
    intro h1
    linarith

/-- C6: `can_signal(ticker, timestamp, cooldownMinutes)` answers true
exactly when no signal is recorded for the ticker or the elapsed minutes
since the recorded signal are at least `cooldownMinutes`, and the call
leaves the per-ticker last-signal state unchanged. -/
theorem can_signal_spec (st : StrategyState) (ticker : String) (ts cd : ℚ) :
    ((canSignalCall st ticker ts cd).1 = true
      ↔ (st ticker = none
          ∨ ∃ s, st ticker = some s ∧ cd ≤ (ts - s.time) / 60))
    ∧ (canSignalCall st ticker ts cd).2 = st := by
  refine ⟨?_, rfl⟩
  show canSignal st ticker ts cd = true ↔ _
  unfold canSignal
  cases h : st ticker with
  | none => simp
  | some s => simp

/-- C8: within each strategy, the BUY-emitting and SELL-emitting guard of
one bar are never simultaneously true: golden and death cross exclude each
other; the Bollinger mean-reversion band guards exclude each other whenever
the oversold threshold is strictly below the overbought one; the Bollinger
middle-band breakout guards exclude each other; and the MACD
cross-above-with-%K-below-50 and cross-below-with-%K-above-50 guards
exclude each other. -/
theorem buy_sell_guards_exclusive (cfg : BBConfig)
    (hth : cfg.rsiOversold < cfg.rsiOverbought) :
    (∀ (prev : Option MABar) (b : MABar),
      ¬(goldenCross prev b = true ∧ deathCross prev b = true))
    ∧ (∀ b : BBBar,
      ¬(bbMeanRevBuyCond cfg b = true ∧ bbMeanRevSellCond cfg b = true))
    ∧ (∀ p b : BBBar,
      ¬(bbBreakoutBuyCond cfg p b = true ∧ bbBreakoutSellCond cfg p b = true))
    ∧ (∀ (prev : Option MSBar) (b : MSBar),
      ¬(msBuyCond prev b = true ∧ msSellCond prev b = true)) := by
  refine ⟨?_, ?_, ?_, ?_⟩
  · rintro prev b ⟨hg, hd⟩
    cases prev with
    | none => cases hg
    | some p =>
      rw [goldenCross, Bool.and_eq_true] at hg
      rw [deathCross, Bool.and_eq_true] at hd
      exact optLtB_optGtB_false b.fastMA b.slowMA hd.2 hg.2
  · rintro b ⟨hb, hs⟩
    rw [bbMeanRevBuyCond, Bool.and_eq_true] at hb
    rw [bbMeanRevSellCond, Bool.and_eq_true] at hs
    exact optLeB_optGeB_sep b.rsi cfg.rsiOverbought cfg.rsiOversold hth
      hb.2 hs.2
  · rintro p b ⟨hb, hs⟩
    rw [bbBreakoutBuyCond, Bool.and_eq_true, Bool.and_eq_true,
      Bool.and_eq_true] at hb
    rw [bbBreakoutSellCond, Bool.and_eq_true, Bool.and_eq_true,
      Bool.and_eq_true] at hs
    exact optLtB_optGtB_false b.rsi (some 50) hs.1.2 hb.1.2
  · rintro prev b ⟨hb, hs⟩
    rw [msBuyCond, Bool.and_eq_true, macdCrossAbove, Bool.and_eq_true] at hb
    rw [msSellCond, Bool.and_eq_true, macdCrossBelow, Bool.and_eq_true] at hs
    exact optLtB_optGtB_false b.macd b.macdSignal hs.1.2 hb.1.2

/-- Witness for C8: the default thresholds (oversold 30 < overbought 70). -/
theorem buy_sell_guards_exclusive_witness :
    ((30 : ℚ) < 70)
    ∧ ((∀ (prev : Option MABar) (b : MABar),
        ¬(goldenCross prev b = true ∧ deathCross prev b = true))
      ∧ (∀ b : BBBar,
        ¬(bbMeanRevBuyCond ⟨20, 2, 14, 70, 30, 30, true⟩ b = true
          ∧ bbMeanRevSellCond ⟨20, 2, 14, 70, 30, 30, true⟩ b = true))
      ∧ (∀ p b : BBBar,
        ¬(bbBreakoutBuyCond ⟨20, 2, 14, 70, 30, 30, true⟩ p b = true
          ∧ bbBreakoutSellCond ⟨20, 2, 14, 70, 30, 30, true⟩ p b = true))
      ∧ (∀ (prev : Option MSBar) (b : MSBar),
        ¬(msBuyCond prev b = true ∧ msSellCond prev b = true))) :=
  ⟨by norm_num,
    buy_sell_guards_exclusive ⟨20, 2, 14, 70, 30, 30, true⟩ (by norm_num)⟩

/-! ## The generate-signals loops -/

/-- The per-row loop of `MACrossoverStrategy.generate_signals`
(src/app/strategy/ma_crossover.py lines 111-172): skip NaN rows, skip index
labels below `slow_ma`, skip while cooling down; on a golden cross emit a
STRONG BUY unless the RSI filter suppresses it, on a death cross emit a
STRONG SELL unless suppressed; every emission records itself via
`update_last_signal`.  `prev` carries the previous row (the `shift(1)`
columns), `idx` the RangeIndex label. -/
def maLoop (cfg : MAConfig) :
    StrategyState → Option MABar → ℕ → List MABar → List Sig
  | _, _, _, [] => []
  | st, prev, idx, b :: rest =>
    if ¬(b.fastMA.isSome && b.slowMA.isSome && b.rsi.isSome) then
      maLoop cfg st (some b) (idx + 1) rest
    else if idx < cfg.slowMA then
      maLoop cfg st (some b) (idx + 1) rest
    else if ¬ canSignal st b.ticker b.time cfg.cooldownMinutes then
      maLoop cfg st (some b) (idx + 1) rest
    else if goldenCross prev b then
      if optLtB b.rsi (some cfg.rsiOverbought) then
        ⟨b.ticker, SignalAction.buy, SignalStrength.strong, b.time, b.close⟩
          :: maLoop cfg
            (updateLastSignal st
              ⟨b.ticker, SignalAction.buy, SignalStrength.strong,
                b.time, b.close⟩)
            (some b) (idx + 1) rest
      else maLoop cfg st (some b) (idx + 1) rest
    else if deathCross prev b then
      if optGtB b.rsi (some cfg.rsiOversold) then
        ⟨b.ticker, SignalAction.sell, SignalStrength.strong, b.time, b.close⟩
          :: maLoop cfg
            (updateLastSignal st
              ⟨b.ticker, SignalAction.sell, SignalStrength.strong,
                b.time, b.close⟩)
            (some b) (idx + 1) rest
      else maLoop cfg st (some b) (idx + 1) rest
    else maLoop cfg st (some b) (idx + 1) rest

/-- `MACrossoverStrategy.generate_signals` (src/app/strategy/ma_crossover.py
lines 51-173): empty input or fewer rows than `slow_ma` yields no signals;
otherwise run the row loop on a fresh instance state. -/
def maGenerateSignals (cfg : MAConfig) (bars : List MABar) : List Sig :=
  if bars.isEmpty then []
  else if bars.length < cfg.slowMA then []
  else maLoop cfg StrategyState.empty none 0 bars

/-- The breakout BUY guard evaluated against the previous DataFrame row
(src/app/strategy/bollinger_bands.py lines 163-169).  With `bb_length ≥ 1`
every processed row (`idx ≥ bb_length`) has a predecessor, carried here in
`prev`; the degenerate `bb_length = 0` configuration, where Python's
`df.index[get_loc(idx) - 1]` would wrap around to the last row at the first
row, is not modelled and the guard is false there. -/
def bbBreakoutBuyAt (cfg : BBConfig) (prev : Option BBBar) (b : BBBar) :
    Bool :=
  match prev with
  | none => false
  | some p => bbBreakoutBuyCond cfg p b

/-- The breakout SELL guard evaluated against the previous DataFrame row
(src/app/strategy/bollinger_bands.py lines 191-193); see
`bbBreakoutBuyAt` for the handling of the previous row. -/
def bbBreakoutSellAt (cfg : BBConfig) (prev : Option BBBar) (b : BBBar) :
    Bool :=
  match prev with
  | none => false
  | some p => bbBreakoutSellCond cfg p b

/-- The strength of a mean-reversion BUY
(src/app/strategy/bollinger_bands.py line 124):
`STRONG if rsi < 20 else MODERATE`. -/
def bbMeanRevBuyStrength (b : BBBar) : SignalStrength :=
  if optLtB b.rsi (some 20) then SignalStrength.strong
  else SignalStrength.moderate

/-- The strength of a mean-reversion SELL
(src/app/strategy/bollinger_bands.py line 145):
`STRONG if rsi > 80 else MODERATE`. -/
def bbMeanRevSellStrength (b : BBBar) : SignalStrength :=
  if optGtB b.rsi (some 80) then SignalStrength.strong
  else SignalStrength.moderate

/-- The per-row loop of `BBandsStrategy.generate_signals`
(src/app/strategy/bollinger_bands.py lines 101-213): skip rows with NaN in
`bb_lower`, `bb_upper` or `rsi`, skip index labels below `bb_length`, skip
while cooling down; then either the mean-reversion band guards or the
middle-band breakout guards, each emission recording itself via
`update_last_signal`. -/
def bbLoop (cfg : BBConfig) :
    StrategyState → Option BBBar → ℕ → List BBBar → List Sig
  | _, _, _, [] => []
  | st, prev, idx, b :: rest =>
    if ¬(b.bbLower.isSome && b.bbUpper.isSome && b.rsi.isSome) then
      bbLoop cfg st (some b) (idx + 1) rest
    else if idx < cfg.bbLength then
      bbLoop cfg st (some b) (idx + 1) rest
    else if ¬ canSignal st b.ticker b.time cfg.cooldownMinutes then
      bbLoop cfg st (some b) (idx + 1) rest
    else if cfg.meanReversion then
      if bbMeanRevBuyCond cfg b then
        ⟨b.ticker, SignalAction.buy, bbMeanRevBuyStrength b,
            b.time, b.close⟩
          :: bbLoop cfg
            (updateLastSignal st
              ⟨b.ticker, SignalAction.buy, bbMeanRevBuyStrength b,
                b.time, b.close⟩)
            (some b) (idx + 1) rest
      else if bbMeanRevSellCond cfg b then
        ⟨b.ticker, SignalAction.sell, bbMeanRevSellStrength b,
            b.time, b.close⟩
          :: bbLoop cfg
            (updateLastSignal st
              ⟨b.ticker, SignalAction.sell, bbMeanRevSellStrength b,
                b.time, b.close⟩)
            (some b) (idx + 1) rest
      else bbLoop cfg st (some b) (idx + 1) rest
    else
      if bbBreakoutBuyAt cfg prev b then
        ⟨b.ticker, SignalAction.buy, SignalStrength.moderate,
            b.time, b.close⟩
          :: bbLoop cfg
            (updateLastSignal st
              ⟨b.ticker, SignalAction.buy, SignalStrength.moderate,
                b.time, b.close⟩)
            (some b) (idx + 1) rest
      else if bbBreakoutSellAt cfg prev b then
        ⟨b.ticker, SignalAction.sell, SignalStrength.moderate,
            b.time, b.close⟩
          :: bbLoop cfg
            (updateLastSignal st
              ⟨b.ticker, SignalAction.sell, SignalStrength.moderate,
                b.time, b.close⟩)
            (some b) (idx + 1) rest
      else bbLoop cfg st (some b) (idx + 1) rest

/-- `BBandsStrategy.generate_signals` (src/app/strategy/bollinger_bands.py
lines 52-214): empty input or fewer rows than `bb_length` yields no
signals; otherwise run the row loop on a fresh instance state. -/
def bbGenerateSignals (cfg : BBConfig) (bars : List BBBar) : List Sig :=
  if bars.isEmpty then []
  else if bars.length < cfg.bbLength then []
  else bbLoop cfg StrategyState.empty none 0 bars

/-- `pd.Series.min` over a nonempty series (used on `Close` prefixes). -/
def seriesMin : List ℚ → ℚ
  | [] => 0
  | x :: xs => xs.foldl min x

/-- `pd.Series.max` over a nonempty series. -/
def seriesMax : List ℚ → ℚ
  | [] => 0
  | x :: xs => xs.foldl max x

/-- The row-validity test of `MACDStochasticStrategy.generate_signals`:
none of `macd`, `macd_signal`, `stoch_k`, `stoch_d` is NaN. -/
def msValid (b : MSBar) : Bool :=
  b.macd.isSome && b.macdSignal.isSome && b.stochK.isSome && b.stochD.isSome

/-- The synthesized initial signal of `MACDStochasticStrategy`
(src/app/strategy/macd_stochastic.py lines 147-205), taken whenever the
series has fewer than 100 rows: find the first row with valid indicators
and emit a MODERATE BUY if its close is nearer the running minimum than the
running maximum of the closes so far, else a MODERATE SELL.  This path
checks no crossover condition, performs no cooldown check, and does not
record the signal in `last_signals`. -/
def initialSignal (bars : List MSBar) : List Sig :=
  match List.findIdx? msValid bars with
  | none => []
  | some i =>
    match bars[i]? with
    | none => []
    | some b =>
      if b.close - seriesMin ((bars.take (i + 1)).map MSBar.close)
          < seriesMax ((bars.take (i + 1)).map MSBar.close) - b.close then
        [⟨b.ticker, SignalAction.buy, SignalStrength.moderate,
          b.time, b.close⟩]
      else
        [⟨b.ticker, SignalAction.sell, SignalStrength.moderate,
          b.time, b.close⟩]

/-- The strength of a crossover BUY (src/app/strategy/macd_stochastic.py
lines 224-231): STRONG when the Stochastic also crosses above with the
prior %K below `stoch_oversold`, else MODERATE. -/
def msBuyStrength (cfg : MSConfig) (prev : Option MSBar) (b : MSBar) :
    SignalStrength :=
  if stochCrossAbove prev b
      && optLtB (prevStochK prev) (some cfg.stochOversold) then
    SignalStrength.strong
  else SignalStrength.moderate

/-- The strength of a crossover SELL (src/app/strategy/macd_stochastic.py
lines 257-264): STRONG when the Stochastic also crosses below with the
prior %K above `stoch_overbought`, else MODERATE. -/
def msSellStrength (cfg : MSConfig) (prev : Option MSBar) (b : MSBar) :
    SignalStrength :=
  if stochCrossBelow prev b
      && optGtB (prevStochK prev) (some cfg.stochOverbought) then
    SignalStrength.strong
  else SignalStrength.moderate

/-- The per-row loop of `MACDStochasticStrategy.generate_signals`
(src/app/strategy/macd_stochastic.py lines 207-333): skip NaN rows, skip
while cooling down; emit on the crossover BUY/SELL guards (STRONG when the
Stochastic confirms from the oversold/overbought zone); otherwise, for
series under 100 rows (`smallData`), emit "flexible" MODERATE signals on
mere MACD direction plus relative Stochastic position.  Every loop emission
records itself via `update_last_signal`. -/
def msLoop (cfg : MSConfig) (smallData : Bool) :
    StrategyState → Option MSBar → List MSBar → List Sig
  | _, _, [] => []
  | st, prev, b :: rest =>
    if ¬ msValid b then msLoop cfg smallData st (some b) rest
    else if ¬ canSignal st b.ticker b.time cfg.cooldownMinutes then
      msLoop cfg smallData st (some b) rest
    else if msBuyCond prev b then
      ⟨b.ticker, SignalAction.buy, msBuyStrength cfg prev b,
          b.time, b.close⟩
        :: msLoop cfg smallData
          (updateLastSignal st
            ⟨b.ticker, SignalAction.buy, msBuyStrength cfg prev b,
              b.time, b.close⟩)
          (some b) rest
    else if msSellCond prev b then
      ⟨b.ticker, SignalAction.sell, msSellStrength cfg prev b,
          b.time, b.close⟩
        :: msLoop cfg smallData
          (updateLastSignal st
            ⟨b.ticker, SignalAction.sell, msSellStrength cfg prev b,
              b.time, b.close⟩)
          (some b) rest
    else if smallData then
      if optGtB b.macd (prevMacd prev) then
        if optLtB b.stochK (some 50) && optGtB b.stochK b.stochD then
          ⟨b.ticker, SignalAction.buy, SignalStrength.moderate,
              b.time, b.close⟩
            :: msLoop cfg smallData
              (updateLastSignal st
                ⟨b.ticker, SignalAction.buy, SignalStrength.moderate,
                  b.time, b.close⟩)
              (some b) rest
        else msLoop cfg smallData st (some b) rest
      else if optLtB b.macd (prevMacd prev) then
        if optGtB b.stochK (some 50) && optLtB b.stochK b.stochD then
          ⟨b.ticker, SignalAction.sell, SignalStrength.moderate,
              b.time, b.close⟩
            :: msLoop cfg smallData
              (updateLastSignal st
                ⟨b.ticker, SignalAction.sell, SignalStrength.moderate,
                  b.time, b.close⟩)
              (some b) rest
        else msLoop cfg smallData st (some b) rest
      else msLoop cfg smallData st (some b) rest
    else msLoop cfg smallData st (some b) rest

/-- `MACDStochasticStrategy.generate_signals`
(src/app/strategy/macd_stochastic.py lines 62-336): empty input or fewer
rows than `max(slow, stoch_k + stoch_d)` yields no signals; series under
100 rows first receive the synthesized initial signal; then the row loop
runs on a fresh instance state. -/
def msGenerateSignals (cfg : MSConfig) (bars : List MSBar) : List Sig :=
  if bars.isEmpty then []
  else if bars.length < max cfg.slow (cfg.stochK + cfg.stochD) then []
  else
    (if bars.length < 100 then initialSignal bars else [])
      ++ msLoop cfg (decide (bars.length < 100)) StrategyState.empty none bars

/-! ## C4: the implicit small-series branches fire without any flag -/

/-- A small parameter set (periods 2/3/2 and 2/1) for which three bars pass
the minimum-length guard. -/
def msCfgSmall : MSConfig := ⟨2, 3, 2, 2, 1, 3, 80, 20, 30⟩

/-- Three bars (10 minutes apart, constant close 10) on which no MACD
crossover ever occurs: `macd` stays below `macd_signal` throughout. -/
def msBadBars : List MSBar :=
  [⟨0, "T", 10, some 1, some 5, some 0, some 60, some 70⟩,
   ⟨600, "T", 10, some 0, some 5, some 0, some 60, some 70⟩,
   ⟨1200, "T", 10, some 0, some 5, some 0, some 60, some 70⟩]

set_option maxRecDepth 4000 in
unseal Rat.inv Rat.mul Rat.add Rat.sub in
/-- C4 (code bug): on a series of fewer than 100 bars the code emits a
synthesized initial SELL and a "flexible" SELL although the
cross-below-with-%K-above-50 guard (and the BUY guard) is false at every
bar under its actual predecessor - behind no flag, only the implicit
`len(df) < 100` threshold.  This contradicts both the class docstring and
the claim. -/
theorem macd_stoch_small_series_bug :
    msGenerateSignals msCfgSmall msBadBars
      = [⟨"T", SignalAction.sell, SignalStrength.moderate, 0, 10⟩,
         ⟨"T", SignalAction.sell, SignalStrength.moderate, 600, 10⟩]
    ∧ msSellCond none (msBadBars.getD 0 ⟨0, "", 0, none, none, none, none, none⟩)
        = false
    ∧ msSellCond (some (msBadBars.getD 0 ⟨0, "", 0, none, none, none, none, none⟩))
        (msBadBars.getD 1 ⟨0, "", 0, none, none, none, none, none⟩) = false
    ∧ msSellCond (some (msBadBars.getD 1 ⟨0, "", 0, none, none, none, none, none⟩))
        (msBadBars.getD 2 ⟨0, "", 0, none, none, none, none, none⟩) = false
    ∧ msBuyCond none (msBadBars.getD 0 ⟨0, "", 0, none, none, none, none, none⟩)
        = false
    ∧ msBuyCond (some (msBadBars.getD 0 ⟨0, "", 0, none, none, none, none, none⟩))
        (msBadBars.getD 1 ⟨0, "", 0, none, none, none, none, none⟩) = false
    ∧ msBuyCond (some (msBadBars.getD 1 ⟨0, "", 0, none, none, none, none, none⟩))
        (msBadBars.getD 2 ⟨0, "", 0, none, none, none, none, none⟩) = false := by
  decide

/-! ## C7: cooldown spacing -/

lemma canSignal_true_elim {st : StrategyState} {tk : String} {ts cd : ℚ}
    (h : canSignal st tk ts cd = true) :
    ∀ l, st tk = some l → cd ≤ (ts - l.time) / 60 := by
  intro l hl
  unfold canSignal at h
  rw [hl] at h
  exact of_decide_eq_true h

lemma div60_nonneg_imp {x : ℚ} (h : 0 ≤ x / 60) : 0 ≤ x := by
  by_contra hneg
  push_neg at hneg
  have : x / 60 < 0 := div_neg_of_neg_of_pos hneg (by norm_num)
  linarith

/-- Adding one cooldown-checked, state-recorded emission in front of a
well-spaced output keeps it well-spaced. -/
lemma spacing_emit (cd : ℚ) (hcd : 0 ≤ cd) (st : StrategyState) (s : Sig)
    (out : List Sig)
    (hcan : canSignal st s.ticker s.time cd = true)
    (hpw : List.Pairwise
      (fun a b => a.ticker = b.ticker → cd ≤ (b.time - a.time) / 60) out)
    (hrec : ∀ x ∈ out, ∀ l, updateLastSignal st s x.ticker = some l →
        cd ≤ (x.time - l.time) / 60 ∧ l.time ≤ x.time) :
    List.Pairwise
      (fun a b => a.ticker = b.ticker → cd ≤ (b.time - a.time) / 60)
      (s :: out)
    ∧ ∀ x ∈ s :: out, ∀ l, st x.ticker = some l →
        cd ≤ (x.time - l.time) / 60 ∧ l.time ≤ x.time := by
  have hgap : ∀ x ∈ out, x.ticker = s.ticker →
      cd ≤ (x.time - s.time) / 60 ∧ s.time ≤ x.time := by
    intro x hx htk
    refine hrec x hx s ?_
    rw [updateLastSignal, if_pos htk]
  constructor
  · exact List.Pairwise.cons (fun x hx htk => (hgap x hx htk.symm).1) hpw
  · intro x hx l hl
    rcases List.mem_cons.mp hx with rfl | hx
    · have h1 := canSignal_true_elim hcan l hl
      refine ⟨h1, ?_⟩
      have h2 : 0 ≤ (x.time - l.time) / 60 := le_trans hcd h1
      have h3 := div60_nonneg_imp h2
      linarith
    · by_cases htk : x.ticker = s.ticker
      · have hl' : st s.ticker = some l := by rw [← htk]; exact hl
        have h1 := canSignal_true_elim hcan l hl'
        have h2 : 0 ≤ (s.time - l.time) / 60 := le_trans hcd h1
        have h3 := div60_nonneg_imp h2
        obtain ⟨hg1, hg2⟩ := hgap x hx htk
        constructor
        · have h4 : (x.time - s.time) / 60 ≤ (x.time - l.time) / 60 :=
            (div_le_div_iff_of_pos_right (by norm_num : (0 : ℚ) < 60)).mpr (by linarith)
          linarith
        · linarith
      · have hl' : updateLastSignal st s x.ticker = some l := by
          rw [updateLastSignal, if_neg htk]; exact hl
        exact hrec x hx l hl'

/-- Every output of the MA-crossover row loop is well-spaced per ticker,
and respects the cooldown relative to the incoming last-signal state. -/
lemma maLoop_spacing (cfg : MAConfig) (hcd : 0 ≤ cfg.cooldownMinutes) :
    ∀ (bars : List MABar) (st : StrategyState) (prev : Option MABar)
      (idx : ℕ),
      List.Pairwise
        (fun a b => a.ticker = b.ticker
          → cfg.cooldownMinutes ≤ (b.time - a.time) / 60)
        (maLoop cfg st prev idx bars)
      ∧ ∀ x ∈ maLoop cfg st prev idx bars, ∀ l, st x.ticker = some l →
          cfg.cooldownMinutes ≤ (x.time - l.time) / 60 ∧ l.time ≤ x.time := by
  intro bars
  induction bars with
  | nil =>
    intro st prev idx
    constructor
    · exact List.Pairwise.nil
    · intro x hx
      exact absurd hx (List.not_mem_nil x)
  | cons b rest ih =>
    intro st prev idx
    rw [maLoop]
    split_ifs with h1 h2 h3 h4 h5 h6 h7
    all_goals
      first
      | exact spacing_emit cfg.cooldownMinutes hcd st _ _ h3
          (ih _ (some b) (idx + 1)).1 (ih _ (some b) (idx + 1)).2
      | exact ih st (some b) (idx + 1)

/-- Every output of the Bollinger-Bands row loop is well-spaced per ticker,
and respects the cooldown relative to the incoming last-signal state. -/
lemma bbLoop_spacing (cfg : BBConfig) (hcd : 0 ≤ cfg.cooldownMinutes) :
    ∀ (bars : List BBBar) (st : StrategyState) (prev : Option BBBar)
      (idx : ℕ),
      List.Pairwise
        (fun a b => a.ticker = b.ticker
          → cfg.cooldownMinutes ≤ (b.time - a.time) / 60)
        (bbLoop cfg st prev idx bars)
      ∧ ∀ x ∈ bbLoop cfg st prev idx bars, ∀ l, st x.ticker = some l →
          cfg.cooldownMinutes ≤ (x.time - l.time) / 60 ∧ l.time ≤ x.time := by
  intro bars
  induction bars with
  | nil =>
    intro st prev idx
    constructor
    · exact List.Pairwise.nil
    · intro x hx
      exact absurd hx (List.not_mem_nil x)
  | cons b rest ih =>
    intro st prev idx
    rw [bbLoop]
    split_ifs with h1 h2 h3 h4 h5 h6 h7 h8
    all_goals
      first
      | exact spacing_emit cfg.cooldownMinutes hcd st _ _ h3
          (ih _ (some b) (idx + 1)).1 (ih _ (some b) (idx + 1)).2
      | exact ih st (some b) (idx + 1)

/-- Every output of the MACD+Stochastic row loop - crossover and flexible
emissions alike - is well-spaced per ticker, and respects the cooldown
relative to the incoming last-signal state.  (The synthesized initial
signal is prepended outside this loop and is not covered.) -/
lemma msLoop_spacing (cfg : MSConfig) (hcd : 0 ≤ cfg.cooldownMinutes)
    (smallData : Bool) :
    ∀ (bars : List MSBar) (st : StrategyState) (prev : Option MSBar),
      List.Pairwise
        (fun a b => a.ticker = b.ticker
          → cfg.cooldownMinutes ≤ (b.time - a.time) / 60)
        (msLoop cfg smallData st prev bars)
      ∧ ∀ x ∈ msLoop cfg smallData st prev bars, ∀ l, st x.ticker = some l →
          cfg.cooldownMinutes ≤ (x.time - l.time) / 60 ∧ l.time ≤ x.time := by
  intro bars
  induction bars with
  | nil =>
    intro st prev
    constructor
    · exact List.Pairwise.nil
    · intro x hx
      exact absurd hx (List.not_mem_nil x)
  | cons b rest ih =>
    intro st prev
    rw [msLoop]
    split_ifs with h1 h2 h3 h4 h5 h6 h7 h8 h9
    all_goals
      first
      | exact spacing_emit cfg.cooldownMinutes hcd st _ _ h2
          (ih _ (some b)).1 (ih _ (some b)).2
      | exact ih st (some b)

set_option maxRecDepth 4000 in
unseal Rat.inv Rat.mul Rat.add Rat.sub in
/-- Counterexample to C7 as stated: on a sub-100-row series the
MACD+Stochastic strategy emits two signals for the same ticker only 10
minutes apart although `cooldownMinutes = 30` - the synthesized initial
signal bypasses the cooldown guard and records nothing. -/
theorem cooldown_spacing_cex :
    msCfgSmall.cooldownMinutes = 30
    ∧ (msGenerateSignals msCfgSmall msBadBars).length = 2
    ∧ ((msGenerateSignals msCfgSmall msBadBars).getD 0
        ⟨"", SignalAction.hold, SignalStrength.weak, 0, 0⟩).ticker
      = ((msGenerateSignals msCfgSmall msBadBars).getD 1
          ⟨"", SignalAction.hold, SignalStrength.weak, 0, 0⟩).ticker
    ∧ (((msGenerateSignals msCfgSmall msBadBars).getD 1
          ⟨"", SignalAction.hold, SignalStrength.weak, 0, 0⟩).time
        - ((msGenerateSignals msCfgSmall msBadBars).getD 0
            ⟨"", SignalAction.hold, SignalStrength.weak, 0, 0⟩).time) / 60
      = 10
    ∧ ¬((30 : ℚ) ≤ 10) := by
  decide

/-- C7 (amended): every emission path that consults `can_signal` and
records via `update_last_signal` keeps any two same-ticker signals of one
run at least `cooldownMinutes` apart (for a nonnegative cooldown): all of
`MACrossoverStrategy.generate_signals`, all of
`BBandsStrategy.generate_signals` (both modes), and the whole row loop of
`MACDStochasticStrategy.generate_signals` (crossover and flexible paths).
Only `MACDStochasticStrategy`'s synthesized initial signal on series under
100 rows bypasses that guard, so only its loop signals are so spaced. -/
theorem guarded_cooldown_spacing
    (maCfg : MAConfig) (bbCfg : BBConfig) (msCfg : MSConfig)
    (hma : 0 ≤ maCfg.cooldownMinutes) (hbb : 0 ≤ bbCfg.cooldownMinutes)
    (hms : 0 ≤ msCfg.cooldownMinutes) (smallData : Bool)
    (maBars : List MABar) (bbBars : List BBBar) (msBars : List MSBar) :
    List.Pairwise
      (fun a b => a.ticker = b.ticker
        → maCfg.cooldownMinutes ≤ (b.time - a.time) / 60)
      (maGenerateSignals maCfg maBars)
    ∧ List.Pairwise
        (fun a b => a.ticker = b.ticker
          → bbCfg.cooldownMinutes ≤ (b.time - a.time) / 60)
        (bbGenerateSignals bbCfg bbBars)
    ∧ List.Pairwise
        (fun a b => a.ticker = b.ticker
          → msCfg.cooldownMinutes ≤ (b.time - a.time) / 60)
        (msLoop msCfg smallData StrategyState.empty none msBars) := by
  refine ⟨?_, ?_,
    (msLoop_spacing msCfg hms smallData msBars StrategyState.empty none).1⟩
  · unfold maGenerateSignals
    split_ifs
    · exact List.Pairwise.nil
    · exact List.Pairwise.nil
    · exact (maLoop_spacing maCfg hma maBars StrategyState.empty none 0).1
  · unfold bbGenerateSignals
    split_ifs
    · exact List.Pairwise.nil
    · exact List.Pairwise.nil
    · exact (bbLoop_spacing bbCfg hbb bbBars StrategyState.empty none 0).1

set_option maxRecDepth 4000 in
unseal Rat.inv Rat.mul Rat.add Rat.sub in
/-- Witness for the amended C7, all under the default 30-minute cooldown:
an MA-crossover run emitting a golden cross and a death cross 60 minutes
apart, a mean-reversion Bollinger run emitting a band BUY and a band SELL
60 minutes apart, and the MACD+Stochastic row loop on the small series
emitting one flexible SELL - each output well-spaced; and in the claim's
example scenario - two golden-cross conditions for the same ticker 10
minutes apart - only the first produces a Signal. -/
theorem guarded_cooldown_spacing_witness :
    (0 : ℚ) ≤ 30
    ∧ (List.Pairwise
        (fun a b : Sig => a.ticker = b.ticker
          → (30 : ℚ) ≤ (b.time - a.time) / 60)
        (maGenerateSignals ⟨1, 1, 14, 70, 30, 30⟩
          [⟨0, "T", 10, some 1, some 2, some 50⟩,
           ⟨3600, "T", 11, some 3, some 2, some 50⟩,
           ⟨7200, "T", 9, some 1, some 2, some 50⟩])
      ∧ List.Pairwise
          (fun a b : Sig => a.ticker = b.ticker
            → (30 : ℚ) ≤ (b.time - a.time) / 60)
          (bbGenerateSignals ⟨1, 2, 14, 70, 30, 30, true⟩
            [⟨0, "T", 10, some 9, some 10, some 11, some 50⟩,
             ⟨3600, "T", 5, some 6, some 10, some 14, some 25⟩,
             ⟨7200, "T", 20, some 12, some 16, some 19, some 75⟩])
      ∧ List.Pairwise
          (fun a b : Sig => a.ticker = b.ticker
            → (30 : ℚ) ≤ (b.time - a.time) / 60)
          (msLoop msCfgSmall true StrategyState.empty none msBadBars))
    ∧ (maGenerateSignals ⟨1, 1, 14, 70, 30, 30⟩
          [⟨0, "T", 10, some 1, some 2, some 50⟩,
           ⟨3600, "T", 11, some 3, some 2, some 50⟩,
           ⟨7200, "T", 9, some 1, some 2, some 50⟩]).length = 2
    ∧ bbGenerateSignals ⟨1, 2, 14, 70, 30, 30, true⟩
        [⟨0, "T", 10, some 9, some 10, some 11, some 50⟩,
         ⟨3600, "T", 5, some 6, some 10, some 14, some 25⟩,
         ⟨7200, "T", 20, some 12, some 16, some 19, some 75⟩]
      = [⟨"T", SignalAction.buy, SignalStrength.moderate, 3600, 5⟩,
         ⟨"T", SignalAction.sell, SignalStrength.moderate, 7200, 20⟩]
    ∧ msLoop msCfgSmall true StrategyState.empty none msBadBars
      = [⟨"T", SignalAction.sell, SignalStrength.moderate, 600, 10⟩]
    ∧ goldenCross (some ⟨0, "T", 10, some 1, some 2, some 50⟩)
        ⟨300, "T", 11, some 3, some 2, some 50⟩ = true
    ∧ goldenCross (some ⟨600, "T", 9, some 1, some 2, some 50⟩)
        ⟨900, "T", 12, some 3, some 2, some 50⟩ = true
    ∧ ((900 : ℚ) - 300) / 60 = 10
    ∧ maGenerateSignals ⟨1, 1, 14, 70, 30, 30⟩
        [⟨0, "T", 10, some 1, some 2, some 50⟩,
         ⟨300, "T", 11, some 3, some 2, some 50⟩,
         ⟨600, "T", 9, some 1, some 2, some 50⟩,
         ⟨900, "T", 12, some 3, some 2, some 50⟩]
      = [⟨"T", SignalAction.buy, SignalStrength.strong, 300, 11⟩] :=
  ⟨by norm_num,
    guarded_cooldown_spacing ⟨1, 1, 14, 70, 30, 30⟩
      ⟨1, 2, 14, 70, 30, 30, true⟩ msCfgSmall
      (by norm_num) (by norm_num) (by norm_num [msCfgSmall]) true
      [⟨0, "T", 10, some 1, some 2, some 50⟩,
       ⟨3600, "T", 11, some 3, some 2, some 50⟩,
       ⟨7200, "T", 9, some 1, some 2, some 50⟩]
      [⟨0, "T", 10, some 9, some 10, some 11, some 50⟩,
       ⟨3600, "T", 5, some 6, some 10, some 14, some 25⟩,
       ⟨7200, "T", 20, some 12, some 16, some 19, some 75⟩]
      msBadBars,
    by decide,
    by decide,
    by decide,
    by decide,
    by decide,
    by decide,
    by decide⟩

end StockAdvisor
